import Mathlib

/-!
Verification of the WorldDistanceBlend plugin
(`Source/WorldDistanceBlend/Public/WorldDistanceBlendSubsystem.h`,
`DistanceBlendTypes.h`, `DistanceBlendComponent.h`).

Shallow embedding conventions:
* `float` values are modelled as exact rationals (`ℚ`).
* `UDistanceBlendComponent` pointers and `AActor` pointers are modelled as
  numeric ids (`Nat`); a null / unset `TWeakObjectPtr` is `Option.none`.
* `uint64` frame counters are naturals reduced mod `2 ^ 64`; the
  `LastUpdateFrame = -1` initializer is the value `2 ^ 64 - 1`.
* Each call to `GetBlendWeights` receives a `BlendEnv`: the current
  `GFrameCounter`, which actors are currently alive (`TWeakObjectPtr::IsValid`),
  and the resolved per-component distance and scalar accessors.  The distance
  accessor folds together `GetActorLocation` / `GetCameraLocation` of the
  target, the owner location of the component, and the `bDistanceXY` flag:
  the engine geometry is an external collaborator, so a call sees only the
  resulting distance of each component.
* The push write `W.Component->BlendWeight = W` mutates externally owned
  component objects and is not part of the subsystem state; it is omitted.
-/

/-- Mirror of `FDistanceBlendWeight` from `DistanceBlendTypes.h`.  The default
constructor sets `BlendWeight = 0`, `DistanceBias = 1`, `Scalar = 1`,
`Dist = 0`. -/
structure FDistanceBlendWeight where
  Component : Nat
  BlendWeight : ℚ
  DistanceBias : ℚ
  Scalar : ℚ
  Dist : ℚ
  deriving DecidableEq, Repr

/-- State of `UWorldDistanceBlendSubsystem`: the registry array, the frame
stamp, the weak blend target, the current weight array and the last valid
weight array. -/
structure UWorldDistanceBlendSubsystem where
  BlendComponents : List Nat
  LastUpdateFrame : Nat
  BlendTarget : Option Nat
  BlendWeights : List FDistanceBlendWeight
  LastValidBlendWeights : List FDistanceBlendWeight
  deriving DecidableEq, Repr

/-- The `uint64` value of the `LastUpdateFrame = -1` initializer. -/
def UINT64_MAX : Nat := 2 ^ 64 - 1

/-- Freshly constructed subsystem: `UPROPERTY` arrays empty, frame stamp at
the invalid sentinel, no blend target. -/
def initSubsystem : UWorldDistanceBlendSubsystem :=
  { BlendComponents := []
    LastUpdateFrame := UINT64_MAX
    BlendTarget := none
    BlendWeights := []
    LastValidBlendWeights := [] }

/-- Per-call environment of a `GetBlendWeights` invocation (see module
docstring). -/
structure BlendEnv where
  frame : Nat
  alive : Nat → Bool
  dist : Nat → ℚ
  scalar : Nat → ℚ

/-- `BlendTarget.IsValid()`: the weak pointer is set and its actor is alive. -/
def IsTargetValid (env : BlendEnv) (s : UWorldDistanceBlendSubsystem) : Bool :=
  match s.BlendTarget with
  | none => false
  | some t => env.alive t

/-- `ShouldUpdateDistance()`: `GFrameCounter != LastUpdateFrame`. -/
def ShouldUpdateDistance (env : BlendEnv) (s : UWorldDistanceBlendSubsystem) : Bool :=
  env.frame % 2 ^ 64 != s.LastUpdateFrame

/-- `AssignBlendTarget(NewBlendTarget)`: on an identity change, empty
`BlendWeights` and reset `LastUpdateFrame` to `-1`; always store the new
target. -/
def AssignBlendTarget (s : UWorldDistanceBlendSubsystem) (newTarget : Option Nat) :
    UWorldDistanceBlendSubsystem :=
  if newTarget ≠ s.BlendTarget then
    { s with BlendWeights := [], LastUpdateFrame := UINT64_MAX, BlendTarget := newTarget }
  else
    { s with BlendTarget := newTarget }

/-- `RegisterBlendComponent`: `TArray::AddUnique`, appending only when the
pointer is not already present. -/
def RegisterBlendComponent (s : UWorldDistanceBlendSubsystem) (c : Nat) :
    UWorldDistanceBlendSubsystem :=
  { s with BlendComponents :=
      if c ∈ s.BlendComponents then s.BlendComponents else s.BlendComponents ++ [c] }

/-- `UnregisterBlendComponent`: `TArray::Remove`, deleting every occurrence of
the pointer while preserving the order of the rest. -/
def UnregisterBlendComponent (s : UWorldDistanceBlendSubsystem) (c : Nat) :
    UWorldDistanceBlendSubsystem :=
  { s with BlendComponents := s.BlendComponents.filter (· != c) }

/-- `GetLastValidBlendWeights(bValid)`: returns the stored array and
`bValid = (Num() > 0)`; never recomputes. -/
def GetLastValidBlendWeights (s : UWorldDistanceBlendSubsystem) :
    List FDistanceBlendWeight × Bool :=
  (s.LastValidBlendWeights, !s.LastValidBlendWeights.isEmpty)

/-- First loop of the recompute block: one record per registered component,
built by the `FDistanceBlendWeight {Comp}` constructor and then given its
`Scalar` and `Dist`.  `BlendWeight` and `DistanceBias` keep their constructor
defaults `0` and `1`. -/
def gatherPass (d sc : Nat → ℚ) (comps : List Nat) : List FDistanceBlendWeight :=
  comps.map fun c =>
    { Component := c, BlendWeight := 0, DistanceBias := 1, Scalar := sc c, Dist := d c }

/-- The running `TotalDistances` accumulated by the first loop. -/
def TotalDistances (d sc : Nat → ℚ) (comps : List Nat) : ℚ :=
  ((gatherPass d sc comps).map FDistanceBlendWeight.Dist).sum

/-- `AverageDistances = TotalDistances / Weights.Num()`. -/
def AverageDistances (d sc : Nat → ℚ) (comps : List Nat) : ℚ :=
  TotalDistances d sc comps / ((gatherPass d sc comps).length : ℚ)

/-- Second loop: `W.DistanceBias = AverageDistances / W.Dist` and
`W.BlendWeight = W.DistanceBias * W.Scalar`. -/
def biasPass (d sc : Nat → ℚ) (comps : List Nat) : List FDistanceBlendWeight :=
  (gatherPass d sc comps).map fun w =>
    { w with DistanceBias := AverageDistances d sc comps / w.Dist
             BlendWeight := (AverageDistances d sc comps / w.Dist) * w.Scalar }

/-- The `Lowest` search: a fold of `if (W.BlendWeight < Lowest) Lowest = W.BlendWeight`.
The source seeds `Lowest` with `INFINITY`; on the (always nonempty) list the
result equals seeding with the head, since the head replaces `INFINITY` at the
first comparison. -/
def listMinQ : List ℚ → ℚ
  | [] => 0
  | x :: xs => xs.foldl (fun acc y => if y < acc then y else acc) x

/-- The `Lowest` blend weight over the bias-pass records. -/
def LowestWeight (d sc : Nat → ℚ) (comps : List Nat) : ℚ :=
  listMinQ ((biasPass d sc comps).map FDistanceBlendWeight.BlendWeight)

/-- Third loop: `W.BlendWeight /= Lowest`. -/
def scalePass (d sc : Nat → ℚ) (comps : List Nat) : List FDistanceBlendWeight :=
  (biasPass d sc comps).map fun w =>
    { w with BlendWeight := w.BlendWeight / LowestWeight d sc comps }

/-- The `Sum` accumulated by the third loop. -/
def WeightSum (d sc : Nat → ℚ) (comps : List Nat) : ℚ :=
  ((scalePass d sc comps).map FDistanceBlendWeight.BlendWeight).sum

/-- Fourth loop: `W.BlendWeight /= Sum`. -/
def normalizePass (d sc : Nat → ℚ) (comps : List Nat) : List FDistanceBlendWeight :=
  (scalePass d sc comps).map fun w =>
    { w with BlendWeight := w.BlendWeight / WeightSum d sc comps }

/-- The whole recompute block of `GetBlendWeights` as a function of the
registry: on an empty registry it early-returns the emptied array, otherwise
it runs the four passes. -/
def computeWeights (d sc : Nat → ℚ) (comps : List Nat) : List FDistanceBlendWeight :=
  if comps = [] then [] else normalizePass d sc comps

/-- `GetBlendWeights(bValid, bDistanceXY)`.  Returns the successor state, the
returned array, and `bValid`.  With an invalid target it returns the current
array with `bValid = false`; if the frame stamp matches `GFrameCounter` it
returns the cached array; otherwise it stamps the frame, recomputes, stores
the result, and copies it to `LastValidBlendWeights` when nonempty. -/
def GetBlendWeights (env : BlendEnv) (s : UWorldDistanceBlendSubsystem) :
    UWorldDistanceBlendSubsystem × List FDistanceBlendWeight × Bool :=
  if !IsTargetValid env s then
    (s, s.BlendWeights, false)
  else if ShouldUpdateDistance env s then
    let ws := computeWeights env.dist env.scalar s.BlendComponents
    let s2 : UWorldDistanceBlendSubsystem :=
      { s with LastUpdateFrame := env.frame % 2 ^ 64
               BlendWeights := ws
               LastValidBlendWeights :=
                 if ws.isEmpty then s.LastValidBlendWeights else ws }
    (s2, s2.BlendWeights, !s2.BlendWeights.isEmpty)
  else
    (s, s.BlendWeights, !s.BlendWeights.isEmpty)

/-- The raw (pre-normalization) blend weight of component `c`:
`DistanceBias * Scalar` after the second loop. -/
def rawWeight (d sc : Nat → ℚ) (comps : List Nat) (c : Nat) : ℚ :=
  AverageDistances d sc comps / d c * sc c

/-- Closed form of the record the recompute block produces for component `c`. -/
def finalRecord (d sc : Nat → ℚ) (comps : List Nat) (c : Nat) : FDistanceBlendWeight :=
  { Component := c
    BlendWeight := rawWeight d sc comps c / LowestWeight d sc comps / WeightSum d sc comps
    DistanceBias := AverageDistances d sc comps / d c
    Scalar := sc c
    Dist := d c }

theorem TotalDistances_eq (d sc : Nat → ℚ) (comps : List Nat) :
    TotalDistances d sc comps = (comps.map d).sum := by
  simp only [TotalDistances, gatherPass, List.map_map]
  rfl

theorem gatherPass_length (d sc : Nat → ℚ) (comps : List Nat) :
    (gatherPass d sc comps).length = comps.length := by
  simp [gatherPass]

theorem biasPass_map_weight (d sc : Nat → ℚ) (comps : List Nat) :
    (biasPass d sc comps).map FDistanceBlendWeight.BlendWeight
      = comps.map (rawWeight d sc comps) := by
  simp only [biasPass, gatherPass, List.map_map]
  rfl

theorem scalePass_map_weight (d sc : Nat → ℚ) (comps : List Nat) :
    (scalePass d sc comps).map FDistanceBlendWeight.BlendWeight
      = comps.map fun c => rawWeight d sc comps c / LowestWeight d sc comps := by
  simp only [scalePass, biasPass, gatherPass, List.map_map]
  rfl

theorem normalizePass_eq (d sc : Nat → ℚ) (comps : List Nat) :
    normalizePass d sc comps = comps.map (finalRecord d sc comps) := by
  simp only [normalizePass, scalePass, biasPass, gatherPass, List.map_map]
  rfl

theorem computeWeights_eq (d sc : Nat → ℚ) (comps : List Nat) (h : comps ≠ []) :
    computeWeights d sc comps = comps.map (finalRecord d sc comps) := by
  rw [computeWeights, if_neg h, normalizePass_eq]

theorem computeWeights_ne_nil (d sc : Nat → ℚ) (comps : List Nat) (h : comps ≠ []) :
    computeWeights d sc comps ≠ [] := by
  rw [computeWeights_eq d sc comps h]
  simpa using h

theorem minFold_le_init (l : List ℚ) (a : ℚ) :
    l.foldl (fun acc y => if y < acc then y else acc) a ≤ a := by
  induction l generalizing a with
  | nil => exact le_refl a
  | cons x xs ih =>
    rw [List.foldl_cons]
    refine le_trans (ih _) ?_
    show (if x < a then x else a) ≤ a
    split
    · exact le_of_lt (by assumption)
    · exact le_refl a

theorem minFold_le_mem (l : List ℚ) (a x : ℚ) (hx : x ∈ l) :
    l.foldl (fun acc y => if y < acc then y else acc) a ≤ x := by
  induction l generalizing a with
  | nil => cases hx
  | cons y ys ih =>
    rw [List.foldl_cons]
    rcases List.mem_cons.1 hx with rfl | hmem
    · refine le_trans (minFold_le_init ys _) ?_
      show (if x < a then x else a) ≤ x
      split
      · exact le_refl x
      · exact le_of_not_lt (by assumption)
    · exact ih _ hmem

theorem minFold_eq_init_or_mem (l : List ℚ) (a : ℚ) :
    l.foldl (fun acc y => if y < acc then y else acc) a = a ∨
      l.foldl (fun acc y => if y < acc then y else acc) a ∈ l := by
  induction l generalizing a with
  | nil => exact Or.inl rfl
  | cons x xs ih =>
    rcases ih (if x < a then x else a) with h | h
    · rw [List.foldl_cons, h]
      split
      · exact Or.inr (List.mem_cons_self x xs)
      · exact Or.inl rfl
    · exact Or.inr (List.mem_cons_of_mem x h)

theorem listMinQ_mem (l : List ℚ) (h : l ≠ []) : listMinQ l ∈ l := by
  cases l with
  | nil => exact absurd rfl h
  | cons x xs =>
    rcases minFold_eq_init_or_mem xs x with h2 | h2
    · rw [listMinQ, h2]
      exact List.mem_cons_self x xs
    · exact List.mem_cons_of_mem x h2

theorem listMinQ_le (l : List ℚ) (x : ℚ) (hx : x ∈ l) : listMinQ l ≤ x := by
  cases l with
  | nil => cases hx
  | cons y ys =>
    rcases List.mem_cons.1 hx with rfl | hmem
    · exact minFold_le_init ys x
    · exact minFold_le_mem ys y x hmem

theorem AverageDistances_pos (d sc : Nat → ℚ) (comps : List Nat) (hne : comps ≠ [])
    (hd : ∀ c ∈ comps, 0 < d c) : 0 < AverageDistances d sc comps := by
  rw [AverageDistances, TotalDistances_eq]
  apply div_pos
  · apply List.sum_pos
    · intro x hx
      rcases List.mem_map.1 hx with ⟨c, hc, rfl⟩
      exact hd c hc
    · simpa using hne
  · rw [gatherPass_length]
    exact_mod_cast List.length_pos.2 hne

theorem rawWeight_pos (d sc : Nat → ℚ) (comps : List Nat) (hne : comps ≠ [])
    (hd : ∀ c ∈ comps, 0 < d c) (hs : ∀ c ∈ comps, 0 < sc c)
    (c : Nat) (hc : c ∈ comps) : 0 < rawWeight d sc comps c :=
  mul_pos (div_pos (AverageDistances_pos d sc comps hne hd) (hd c hc)) (hs c hc)

theorem LowestWeight_pos (d sc : Nat → ℚ) (comps : List Nat) (hne : comps ≠ [])
    (hd : ∀ c ∈ comps, 0 < d c) (hs : ∀ c ∈ comps, 0 < sc c) :
    0 < LowestWeight d sc comps := by
  rw [LowestWeight, biasPass_map_weight]
  have hmem := listMinQ_mem (comps.map (rawWeight d sc comps)) (by simpa using hne)
  rcases List.mem_map.1 hmem with ⟨c, hc, heq⟩
  rw [← heq]
  exact rawWeight_pos d sc comps hne hd hs c hc

theorem WeightSum_pos (d sc : Nat → ℚ) (comps : List Nat) (hne : comps ≠ [])
    (hd : ∀ c ∈ comps, 0 < d c) (hs : ∀ c ∈ comps, 0 < sc c) :
    0 < WeightSum d sc comps := by
  rw [WeightSum, scalePass_map_weight]
  apply List.sum_pos
  · intro x hx
    rcases List.mem_map.1 hx with ⟨c, hc, rfl⟩
    exact div_pos (rawWeight_pos d sc comps hne hd hs c hc)
      (LowestWeight_pos d sc comps hne hd hs)
  · simpa using hne

theorem finalRecord_weight_pos (d sc : Nat → ℚ) (comps : List Nat) (hne : comps ≠ [])
    (hd : ∀ c ∈ comps, 0 < d c) (hs : ∀ c ∈ comps, 0 < sc c)
    (c : Nat) (hc : c ∈ comps) : 0 < (finalRecord d sc comps c).BlendWeight :=
  div_pos (div_pos (rawWeight_pos d sc comps hne hd hs c hc)
    (LowestWeight_pos d sc comps hne hd hs)) (WeightSum_pos d sc comps hne hd hs)

theorem computeWeights_sum_one (d sc : Nat → ℚ) (comps : List Nat) (hne : comps ≠ [])
    (hd : ∀ c ∈ comps, 0 < d c) (hs : ∀ c ∈ comps, 0 < sc c) :
    ((computeWeights d sc comps).map FDistanceBlendWeight.BlendWeight).sum = 1 := by
  have hS := WeightSum_pos d sc comps hne hd hs
  rw [computeWeights_eq d sc comps hne, List.map_map]
  have h1 : (FDistanceBlendWeight.BlendWeight ∘ finalRecord d sc comps)
      = fun c => (rawWeight d sc comps c / LowestWeight d sc comps) * (WeightSum d sc comps)⁻¹ := by
    funext c
    simp [finalRecord, div_eq_mul_inv]
  rw [h1, List.sum_map_mul_right, ← scalePass_map_weight, ← WeightSum]
  exact mul_inv_cancel₀ (ne_of_gt hS)

theorem finalRecord_weight_lt (d sc : Nat → ℚ) (comps : List Nat) (hne : comps ≠ [])
    (hd : ∀ c ∈ comps, 0 < d c) (hs : ∀ c ∈ comps, 0 < sc c)
    (a b : Nat) (hraw : rawWeight d sc comps b < rawWeight d sc comps a) :
    (finalRecord d sc comps b).BlendWeight < (finalRecord d sc comps a).BlendWeight := by
  have hL := LowestWeight_pos d sc comps hne hd hs
  have hS := WeightSum_pos d sc comps hne hd hs
  show rawWeight d sc comps b / _ / _ < rawWeight d sc comps a / _ / _
  exact (div_lt_div_iff_of_pos_right hS).2 ((div_lt_div_iff_of_pos_right hL).2 hraw)

theorem GetBlendWeights_invalid (env : BlendEnv) (s : UWorldDistanceBlendSubsystem)
    (h : IsTargetValid env s = false) :
    GetBlendWeights env s = (s, s.BlendWeights, false) := by
  simp [GetBlendWeights, h]

theorem GetBlendWeights_cached (env : BlendEnv) (s : UWorldDistanceBlendSubsystem)
    (h : IsTargetValid env s = true) (h2 : env.frame % 2 ^ 64 = s.LastUpdateFrame) :
    GetBlendWeights env s = (s, s.BlendWeights, !s.BlendWeights.isEmpty) := by
  rw [GetBlendWeights]
  rw [if_neg (by simp [h]), if_neg (by simp [ShouldUpdateDistance]; exact_mod_cast h2)]

theorem GetBlendWeights_recompute (env : BlendEnv) (s : UWorldDistanceBlendSubsystem)
    (h : IsTargetValid env s = true) (h2 : env.frame % 2 ^ 64 ≠ s.LastUpdateFrame) :
    GetBlendWeights env s =
      ({ s with LastUpdateFrame := env.frame % 2 ^ 64
                BlendWeights := computeWeights env.dist env.scalar s.BlendComponents
                LastValidBlendWeights :=
                  if (computeWeights env.dist env.scalar s.BlendComponents).isEmpty then
                    s.LastValidBlendWeights
                  else computeWeights env.dist env.scalar s.BlendComponents },
        computeWeights env.dist env.scalar s.BlendComponents,
        !(computeWeights env.dist env.scalar s.BlendComponents).isEmpty) := by
  rw [GetBlendWeights]
  rw [if_neg (by simp [h]), if_pos (by simp [ShouldUpdateDistance]; exact_mod_cast h2)]

/-- A registry mutation: one `RegisterBlendComponent` or
`UnregisterBlendComponent` call. -/
inductive RegistryOp where
  | reg (c : Nat)
  | unreg (c : Nat)

/-- Apply one registry mutation. -/
def applyRegistryOp (s : UWorldDistanceBlendSubsystem) : RegistryOp → UWorldDistanceBlendSubsystem
  | RegistryOp.reg c => RegisterBlendComponent s c
  | RegistryOp.unreg c => UnregisterBlendComponent s c

/-- Apply a sequence of registry mutations in order. -/
def applyRegistryOps (s : UWorldDistanceBlendSubsystem) (ops : List RegistryOp) :
    UWorldDistanceBlendSubsystem :=
  ops.foldl applyRegistryOp s

theorem register_nodup (s : UWorldDistanceBlendSubsystem) (c : Nat)
    (h : s.BlendComponents.Nodup) : (RegisterBlendComponent s c).BlendComponents.Nodup := by
  rw [RegisterBlendComponent]
  by_cases hc : c ∈ s.BlendComponents
  · simpa [hc] using h
  · simp [hc, List.nodup_append, h]

theorem unregister_nodup (s : UWorldDistanceBlendSubsystem) (c : Nat)
    (h : s.BlendComponents.Nodup) : (UnregisterBlendComponent s c).BlendComponents.Nodup :=
  List.Nodup.filter _ h

theorem applyRegistryOp_nodup (s : UWorldDistanceBlendSubsystem) (op : RegistryOp)
    (h : s.BlendComponents.Nodup) : (applyRegistryOp s op).BlendComponents.Nodup := by
  cases op with
  | reg c => exact register_nodup s c h
  | unreg c => exact unregister_nodup s c h

theorem applyRegistryOps_nodup (s : UWorldDistanceBlendSubsystem) (ops : List RegistryOp)
    (h : s.BlendComponents.Nodup) : (applyRegistryOps s ops).BlendComponents.Nodup := by
  induction ops generalizing s with
  | nil => exact h
  | cons op rest ih => exact ih (applyRegistryOp s op) (applyRegistryOp_nodup s op h)

/-- Claim C9: Register adds an entity only if it is not already present and is
a no-op on a duplicate (reference-equality uniqueness); Unregister removes an
entity if present and is a no-op if absent; consequently, after any sequence
of Register and Unregister calls the registry contains no duplicates and
preserves insertion order of the remaining entities (removal keeps the rest
in order, i.e. yields a sublist; addition appends at the end). -/
theorem claim9_registry (s : UWorldDistanceBlendSubsystem) (c : Nat) (ops : List RegistryOp) :
    (c ∈ s.BlendComponents → RegisterBlendComponent s c = s) ∧
    (c ∉ s.BlendComponents →
      (RegisterBlendComponent s c).BlendComponents = s.BlendComponents ++ [c]) ∧
    (c ∉ (UnregisterBlendComponent s c).BlendComponents) ∧
    (c ∉ s.BlendComponents → UnregisterBlendComponent s c = s) ∧
    (∀ x, x ≠ c →
      (x ∈ (UnregisterBlendComponent s c).BlendComponents ↔ x ∈ s.BlendComponents)) ∧
    ((UnregisterBlendComponent s c).BlendComponents.Sublist s.BlendComponents) ∧
    (s.BlendComponents.Nodup → (applyRegistryOps s ops).BlendComponents.Nodup) := by
  refine ⟨?_, ?_, ?_, ?_, ?_, ?_, ?_⟩
  · intro h
    simp [RegisterBlendComponent, h]
  · intro h
    simp [RegisterBlendComponent, h]
  · simp [UnregisterBlendComponent, List.mem_filter]
  · intro h
    have : s.BlendComponents.filter (· != c) = s.BlendComponents :=
      List.filter_eq_self.2 fun x hx => by
        simp only [bne_iff_ne, ne_eq, decide_eq_true_eq]
        rintro rfl
        exact h hx
    simp [UnregisterBlendComponent, this]
  · intro x hx
    simp [UnregisterBlendComponent, List.mem_filter, hx]
  · exact List.filter_sublist _
  · exact applyRegistryOps_nodup s ops

/-- Witness for C9 at a concrete registry holding `[3]`, with the op sequence
register 3 (duplicate), register 7, unregister 3. -/
def st9 : UWorldDistanceBlendSubsystem :=
  { initSubsystem with BlendComponents := [3] }

/-- The concrete op sequence for the C9 witness. -/
def ops9 : List RegistryOp := [RegistryOp.reg 3, RegistryOp.reg 7, RegistryOp.unreg 3]

theorem claim9_registry_witness :
    (RegisterBlendComponent st9 7).BlendComponents = [3, 7] ∧
    7 ∉ (UnregisterBlendComponent st9 7).BlendComponents ∧
    (applyRegistryOps st9 ops9).BlendComponents.Nodup := by
  refine ⟨?_, ?_, ?_⟩
  · rw [(claim9_registry st9 7 ops9).2.1 (by decide)]
    rfl
  · exact (claim9_registry st9 7 ops9).2.2.1
  · exact (claim9_registry st9 7 ops9).2.2.2.2.2.2 (by decide)

/-- Claim C10: Once the last-valid weight set is non-empty, no operation ever
makes it empty again: Register, Unregister, GetBlendWeights,
GetLastValidBlendWeights, and in particular AssignBlendTarget (which clears
only the current weight set and the frame stamp, even when the target
changes) all leave a non-empty last-valid set non-empty. -/
theorem claim10_lastvalid_never_cleared (env : BlendEnv) (s : UWorldDistanceBlendSubsystem)
    (c : Nat) (newT : Option Nat) (h : s.LastValidBlendWeights ≠ []) :
    (RegisterBlendComponent s c).LastValidBlendWeights ≠ [] ∧
    (UnregisterBlendComponent s c).LastValidBlendWeights ≠ [] ∧
    (AssignBlendTarget s newT).LastValidBlendWeights ≠ [] ∧
    (GetLastValidBlendWeights s).1 ≠ [] ∧
    (GetBlendWeights env s).1.LastValidBlendWeights ≠ [] := by
  refine ⟨h, h, ?_, h, ?_⟩
  · rw [AssignBlendTarget]
    split
    · exact h
    · exact h
  · by_cases htgt : IsTargetValid env s = true
    · by_cases hfr : env.frame % 2 ^ 64 = s.LastUpdateFrame
      · rw [GetBlendWeights_cached env s htgt hfr]
        exact h
      · rw [GetBlendWeights_recompute env s htgt hfr]
        simp only
        split
        · exact h
        · simpa using (by assumption : ¬(computeWeights env.dist env.scalar
            s.BlendComponents).isEmpty = true)
    · rw [GetBlendWeights_invalid env s (by simpa using htgt)]
      exact h

/-- Concrete state for the C10 witness: a non-empty last-valid set. -/
def st10 : UWorldDistanceBlendSubsystem :=
  { initSubsystem with LastValidBlendWeights :=
      [{ Component := 0, BlendWeight := 1, DistanceBias := 1, Scalar := 1, Dist := 5 }] }

/-- Concrete environment for the C10 witness. -/
def env10 : BlendEnv :=
  { frame := 0, alive := fun _ => true, dist := fun _ => 1, scalar := fun _ => 1 }

theorem claim10_lastvalid_never_cleared_witness :
    (RegisterBlendComponent st10 4).LastValidBlendWeights ≠ [] ∧
    (UnregisterBlendComponent st10 4).LastValidBlendWeights ≠ [] ∧
    (AssignBlendTarget st10 (some 2)).LastValidBlendWeights ≠ [] ∧
    (GetLastValidBlendWeights st10).1 ≠ [] ∧
    (GetBlendWeights env10 st10).1.LastValidBlendWeights ≠ [] :=
  claim10_lastvalid_never_cleared env10 st10 4 (some 2) (by simp [st10, initSubsystem])

/-- Distances 10, 20, 30 for the three components 0, 1, 2 of the worked
example. -/
def d8 : Nat → ℚ := fun c => if c = 0 then 10 else if c = 1 then 20 else 30

/-- All scalars 1 for the worked example. -/
def sc8 : Nat → ℚ := fun _ => 1

/-- Environment for the worked example: frame 0, target alive, distances
10, 20, 30, scalars 1. -/
def env8 : BlendEnv := { frame := 0, alive := fun _ => true, dist := d8, scalar := sc8 }

/-- Subsystem state for the worked example: components 0, 1, 2 registered and
a live target assigned, stamp still at the sentinel. -/
def st8 : UWorldDistanceBlendSubsystem :=
  { initSubsystem with BlendComponents := [0, 1, 2], BlendTarget := some 7 }

/-- Claim C8: For three registered entities at distances 10, 20 and 30 from
the reference target with all scalars equal to 1, one evaluation computes
average distance 20, distance biases 2, 1, 2/3, raw weights equal to the
biases, minimum 2/3, rescaled weights 3, 3/2, 1, their sum 11/2, and final
weights exactly 6/11, 3/11, 2/11, summing to 1. -/
theorem claim8_worked_example :
    AverageDistances d8 sc8 [0, 1, 2] = 20 ∧
    (biasPass d8 sc8 [0, 1, 2]).map FDistanceBlendWeight.DistanceBias = [2, 1, 2/3] ∧
    (biasPass d8 sc8 [0, 1, 2]).map FDistanceBlendWeight.BlendWeight = [2, 1, 2/3] ∧
    LowestWeight d8 sc8 [0, 1, 2] = 2/3 ∧
    (scalePass d8 sc8 [0, 1, 2]).map FDistanceBlendWeight.BlendWeight = [3, 3/2, 1] ∧
    WeightSum d8 sc8 [0, 1, 2] = 11/2 ∧
    (computeWeights d8 sc8 [0, 1, 2]).map FDistanceBlendWeight.BlendWeight
      = [6/11, 3/11, 2/11] ∧
    ((computeWeights d8 sc8 [0, 1, 2]).map FDistanceBlendWeight.BlendWeight).sum = 1 ∧
    (GetBlendWeights env8 st8).2.1.map FDistanceBlendWeight.BlendWeight
      = [6/11, 3/11, 2/11] := by
  refine ⟨?_, ?_, ?_, ?_, ?_, ?_, ?_, ?_, ?_⟩ <;>
    norm_num [GetBlendWeights, IsTargetValid, ShouldUpdateDistance, env8, st8, initSubsystem,
      UINT64_MAX, computeWeights, normalizePass, scalePass, biasPass, gatherPass, WeightSum,
      LowestWeight, listMinQ, AverageDistances, TotalDistances, d8, sc8,
      List.cons_ne_nil, if_neg]

/-- Claim C1: For every evaluation with a valid reference target and a
non-empty set of registered entities (each with positive distance and positive
scalar), the weight set produced by GetBlendWeights is non-empty and the sum
of the BlendWeight field over all its records equals 1. -/
theorem claim1_weights_sum_to_one (env : BlendEnv) (s : UWorldDistanceBlendSubsystem)
    (htgt : IsTargetValid env s = true)
    (hfr : env.frame % 2 ^ 64 ≠ s.LastUpdateFrame)
    (hne : s.BlendComponents ≠ [])
    (hd : ∀ c ∈ s.BlendComponents, 0 < env.dist c)
    (hs : ∀ c ∈ s.BlendComponents, 0 < env.scalar c) :
    (GetBlendWeights env s).2.1 ≠ [] ∧
      ((GetBlendWeights env s).2.1.map FDistanceBlendWeight.BlendWeight).sum = 1 := by
  rw [GetBlendWeights_recompute env s htgt hfr]
  exact ⟨computeWeights_ne_nil _ _ _ hne, computeWeights_sum_one _ _ _ hne hd hs⟩

/-- Environment for the C1 witness: frame 0, everything alive, distances
c + 1, scalars 1. -/
def env1w : BlendEnv :=
  { frame := 0, alive := fun _ => true, dist := fun c => (c : ℚ) + 1, scalar := fun _ => 1 }

/-- State for the C1 witness: two registered components and a live target. -/
def st1w : UWorldDistanceBlendSubsystem :=
  { initSubsystem with BlendComponents := [0, 1], BlendTarget := some 3 }

theorem claim1_weights_sum_to_one_witness :
    (GetBlendWeights env1w st1w).2.1 ≠ [] ∧
      ((GetBlendWeights env1w st1w).2.1.map FDistanceBlendWeight.BlendWeight).sum = 1 :=
  claim1_weights_sum_to_one env1w st1w rfl (by decide) (by decide)
    (fun c _ => by norm_num [env1w]; positivity) (fun c _ => by norm_num [env1w])

/-- First environment of the C2 trace: frame 0, target actor 5 alive. -/
def env2a : BlendEnv :=
  { frame := 0, alive := fun _ => true, dist := fun _ => 10, scalar := fun _ => 1 }

/-- Second environment of the C2 trace: frame 1, actor 5 has been destroyed,
so the stored weak target is no longer valid. -/
def env2b : BlendEnv :=
  { frame := 1, alive := fun _ => false, dist := fun _ => 10, scalar := fun _ => 1 }

/-- The C2 trace: register component 0, assign actor 5 as target, evaluate at
frame 0 (producing a non-empty weight set), and keep the resulting state.
Afterwards actor 5 is destroyed. -/
def st2 : UWorldDistanceBlendSubsystem :=
  (GetBlendWeights env2a (AssignBlendTarget (RegisterBlendComponent initSubsystem 0)
    (some 5))).1

/-- Counterexample to C2 as stated: in the reachable state `st2` the reference
target is no longer valid and the current weight set is non-empty, yet
GetBlendWeights reports bValid = false (the source sets `bValid = false` and
early-returns, never comparing against emptiness), contradicting
`valid = (set non-empty)`. -/
theorem claim2_counterexample :
    IsTargetValid env2b st2 = false ∧
    (GetBlendWeights env2b st2).2.1 = st2.BlendWeights ∧
    (GetBlendWeights env2b st2).2.1 ≠ [] ∧
    (GetBlendWeights env2b st2).2.2 = false := by
  refine ⟨?_, ?_, ?_, ?_⟩ <;>
    norm_num [GetBlendWeights, IsTargetValid, ShouldUpdateDistance, st2, env2a, env2b,
      AssignBlendTarget, RegisterBlendComponent, initSubsystem, UINT64_MAX, computeWeights,
      normalizePass, scalePass, biasPass, gatherPass, WeightSum, LowestWeight, listMinQ,
      AverageDistances, TotalDistances, List.cons_ne_nil, if_neg]

/-- Claim C2 (amended): for every evaluator state in which no valid reference
target is set, GetBlendWeights returns the current weight set unmodified,
leaves the state unchanged, and reports bValid = false unconditionally,
regardless of whether that set is empty. -/
theorem claim2_no_target_invalid (env : BlendEnv) (s : UWorldDistanceBlendSubsystem)
    (h : IsTargetValid env s = false) :
    GetBlendWeights env s = (s, s.BlendWeights, false) :=
  GetBlendWeights_invalid env s h

theorem claim2_no_target_invalid_witness :
    GetBlendWeights env2b initSubsystem = (initSubsystem, initSubsystem.BlendWeights, false) :=
  claim2_no_target_invalid env2b initSubsystem rfl

/-- Claim C4: Calling AssignBlendTarget with a target that differs by identity
from the stored one empties the current weight set, resets the frame stamp to
the invalid sentinel, and stores the new target, so that an immediately
following GetBlendWeights recomputes even though the current frame counter has
not advanced (the state was already stamped with the current frame). -/
theorem claim4_assign_forces_recompute (env : BlendEnv) (s : UWorldDistanceBlendSubsystem)
    (newT : Option Nat)
    (hdiff : newT ≠ s.BlendTarget)
    (_hstamped : s.LastUpdateFrame = env.frame % 2 ^ 64)
    (hvalid : IsTargetValid env (AssignBlendTarget s newT) = true)
    (hfr : env.frame % 2 ^ 64 ≠ UINT64_MAX) :
    AssignBlendTarget s newT
      = { s with BlendWeights := [], LastUpdateFrame := UINT64_MAX, BlendTarget := newT } ∧
    (GetBlendWeights env (AssignBlendTarget s newT)).2.1
      = computeWeights env.dist env.scalar s.BlendComponents ∧
    (GetBlendWeights env (AssignBlendTarget s newT)).1.LastUpdateFrame
      = env.frame % 2 ^ 64 := by
  have hassign : AssignBlendTarget s newT
      = { s with BlendWeights := [], LastUpdateFrame := UINT64_MAX, BlendTarget := newT } := by
    rw [AssignBlendTarget, if_pos hdiff]
  have hfr2 : env.frame % 2 ^ 64 ≠ (AssignBlendTarget s newT).LastUpdateFrame := by
    rw [hassign]
    exact hfr
  refine ⟨hassign, ?_, ?_⟩
  · rw [GetBlendWeights_recompute env (AssignBlendTarget s newT) hvalid hfr2, hassign]
  · rw [GetBlendWeights_recompute env (AssignBlendTarget s newT) hvalid hfr2]

/-- Environment for the C4 witness. -/
def env4 : BlendEnv :=
  { frame := 3, alive := fun _ => true, dist := fun _ => 2, scalar := fun _ => 1 }

/-- State for the C4 witness: already evaluated at frame 3 for target 1.  The
target is then switched to actor 2. -/
def st4 : UWorldDistanceBlendSubsystem :=
  { BlendComponents := [0]
    LastUpdateFrame := 3
    BlendTarget := some 1
    BlendWeights := [{ Component := 0, BlendWeight := 1, DistanceBias := 1, Scalar := 1, Dist := 2 }]
    LastValidBlendWeights :=
      [{ Component := 0, BlendWeight := 1, DistanceBias := 1, Scalar := 1, Dist := 2 }] }

theorem claim4_assign_forces_recompute_witness :
    AssignBlendTarget st4 (some 2)
      = { st4 with BlendWeights := [], LastUpdateFrame := UINT64_MAX, BlendTarget := some 2 } ∧
    (GetBlendWeights env4 (AssignBlendTarget st4 (some 2))).2.1
      = computeWeights env4.dist env4.scalar st4.BlendComponents ∧
    (GetBlendWeights env4 (AssignBlendTarget st4 (some 2))).1.LastUpdateFrame
      = env4.frame % 2 ^ 64 :=
  claim4_assign_forces_recompute env4 st4 (some 2) (by decide) (by decide) rfl (by decide)

/-- Claim C5: If the evaluator frame stamp already equals the current frame
counter, GetBlendWeights performs no recomputation and leaves all evaluator
state (current weight set, last-valid set, frame stamp) unchanged, returning
the cached current weight set; hence, since a recompute stamps the current
frame, a second call in the same frame returns the identical result and
changes nothing: at most one computation happens per frame regardless of how
many times GetBlendWeights is called. -/
theorem claim5_at_most_one_computation_per_frame (env : BlendEnv)
    (s : UWorldDistanceBlendSubsystem) :
    (s.LastUpdateFrame = env.frame % 2 ^ 64 →
      (GetBlendWeights env s).1 = s ∧ (GetBlendWeights env s).2.1 = s.BlendWeights) ∧
    GetBlendWeights env (GetBlendWeights env s).1 = GetBlendWeights env s := by
  constructor
  · intro h2
    by_cases htgt : IsTargetValid env s = true
    · rw [GetBlendWeights_cached env s htgt h2.symm]
      exact ⟨rfl, rfl⟩
    · rw [GetBlendWeights_invalid env s (by simpa using htgt)]
      exact ⟨rfl, rfl⟩
  · by_cases htgt : IsTargetValid env s = true
    · by_cases hfr : env.frame % 2 ^ 64 = s.LastUpdateFrame
      · rw [GetBlendWeights_cached env s htgt hfr]
        exact GetBlendWeights_cached env s htgt hfr
      · rw [GetBlendWeights_recompute env s htgt hfr]
        exact GetBlendWeights_cached env _ htgt rfl
    · rw [GetBlendWeights_invalid env s (by simpa using htgt)]
      exact GetBlendWeights_invalid env s (by simpa using htgt)

/-- Environment for the C5 witness. -/
def env5 : BlendEnv :=
  { frame := 7, alive := fun _ => true, dist := fun _ => 4, scalar := fun _ => 1 }

/-- State for the C5 witness: already stamped with frame 7 and holding a
cached weight set. -/
def st5 : UWorldDistanceBlendSubsystem :=
  { BlendComponents := [0]
    LastUpdateFrame := 7
    BlendTarget := some 1
    BlendWeights := [{ Component := 0, BlendWeight := 1, DistanceBias := 1, Scalar := 1, Dist := 4 }]
    LastValidBlendWeights :=
      [{ Component := 0, BlendWeight := 1, DistanceBias := 1, Scalar := 1, Dist := 4 }] }

theorem claim5_at_most_one_computation_per_frame_witness :
    ((GetBlendWeights env5 st5).1 = st5 ∧ (GetBlendWeights env5 st5).2.1 = st5.BlendWeights) ∧
    GetBlendWeights env5 (GetBlendWeights env5 st5).1 = GetBlendWeights env5 st5 :=
  ⟨(claim5_at_most_one_computation_per_frame env5 st5).1 (by decide),
   (claim5_at_most_one_computation_per_frame env5 st5).2⟩

/-- Claim C6: The last-valid weight set is overwritten exactly when a
recomputation produces a non-empty weight set; a recomputation over zero
registered entities returns an empty current set with bValid = false and
leaves the last-valid set untouched, so GetLastValidBlendWeights still
reflects the previous non-empty snapshot. -/
theorem claim6_lastvalid_overwrite (env : BlendEnv) (s : UWorldDistanceBlendSubsystem)
    (htgt : IsTargetValid env s = true)
    (hfr : env.frame % 2 ^ 64 ≠ s.LastUpdateFrame) :
    (s.BlendComponents = [] →
      GetBlendWeights env s
        = ({ s with LastUpdateFrame := env.frame % 2 ^ 64, BlendWeights := [] }, [], false) ∧
      GetLastValidBlendWeights (GetBlendWeights env s).1 = GetLastValidBlendWeights s) ∧
    (s.BlendComponents ≠ [] →
      (GetBlendWeights env s).1.LastValidBlendWeights
        = computeWeights env.dist env.scalar s.BlendComponents) := by
  rw [GetBlendWeights_recompute env s htgt hfr]
  constructor
  · intro hemp
    have hw : computeWeights env.dist env.scalar s.BlendComponents = [] := by
      rw [computeWeights, if_pos hemp]
    rw [hw]
    exact ⟨rfl, rfl⟩
  · intro hne
    have hw : (computeWeights env.dist env.scalar s.BlendComponents).isEmpty = false := by
      simpa [List.isEmpty_iff] using computeWeights_ne_nil env.dist env.scalar
        s.BlendComponents hne
    simp [hw]

/-- Environment for the C6 witness. -/
def env6 : BlendEnv :=
  { frame := 2, alive := fun _ => true, dist := fun _ => 3, scalar := fun _ => 1 }

/-- State for the C6 witness: empty registry, stale stamp, a previous
non-empty last-valid snapshot. -/
def st6 : UWorldDistanceBlendSubsystem :=
  { BlendComponents := []
    LastUpdateFrame := 1
    BlendTarget := some 1
    BlendWeights := []
    LastValidBlendWeights :=
      [{ Component := 0, BlendWeight := 1, DistanceBias := 1, Scalar := 1, Dist := 3 }] }

theorem claim6_lastvalid_overwrite_witness :
    GetBlendWeights env6 st6
      = ({ st6 with LastUpdateFrame := env6.frame % 2 ^ 64, BlendWeights := [] }, [], false) ∧
    GetLastValidBlendWeights (GetBlendWeights env6 st6).1 = GetLastValidBlendWeights st6 :=
  (claim6_lastvalid_overwrite env6 st6 rfl (by decide)).1 rfl

/-- Distances for the C7 counterexample: both components at distance 1. -/
def d7 : Nat → ℚ := fun _ => 1

/-- Scalars for the C7 counterexample: component 0 has scalar 2, component 1
has scalar -1 (GetBlendScalar is an overridable float and may be negative). -/
def sc7 : Nat → ℚ := fun c => if c = 0 then 2 else -1

/-- Environment for the C7 counterexample. -/
def env7 : BlendEnv := { frame := 0, alive := fun _ => true, dist := d7, scalar := sc7 }

/-- State for the C7 counterexample: components 0 and 1 registered, live
target, stale stamp. -/
def st7 : UWorldDistanceBlendSubsystem :=
  { initSubsystem with BlendComponents := [0, 1], BlendTarget := some 3 }

/-- Counterexample to C7 as stated: with a negative scalar the evaluator
produces a record whose BlendWeight is -1 < 0 (every arithmetic step here is
exact, so IEEE floats give the same values: raws 2 and -1, lowest -1,
rescaled -2 and 1, sum -1, final weights 2 and -1). -/
theorem claim7_counterexample :
    (GetBlendWeights env7 st7).2.1.map FDistanceBlendWeight.BlendWeight = [2, -1] ∧
    ¬ (0 : ℚ) ≤ -1 := by
  constructor
  · norm_num [GetBlendWeights, IsTargetValid, ShouldUpdateDistance, env7, st7, initSubsystem,
      UINT64_MAX, computeWeights, normalizePass, scalePass, biasPass, gatherPass, WeightSum,
      LowestWeight, listMinQ, AverageDistances, TotalDistances, d7, sc7,
      List.cons_ne_nil, if_neg]
  · norm_num

/-- Claim C7 (amended): in every weight set a recomputation produces over
entities whose distances and scalars are all positive, the BlendWeight field
of every record is nonnegative.  (The restriction to positive scalars is
forced by the counterexample; positive distance rules out the division-by-zero
degeneracy the spec flags as an open question.) -/
theorem claim7_weights_nonneg (env : BlendEnv) (s : UWorldDistanceBlendSubsystem)
    (htgt : IsTargetValid env s = true)
    (hfr : env.frame % 2 ^ 64 ≠ s.LastUpdateFrame)
    (hd : ∀ c ∈ s.BlendComponents, 0 < env.dist c)
    (hs : ∀ c ∈ s.BlendComponents, 0 < env.scalar c) :
    ∀ r ∈ (GetBlendWeights env s).2.1, 0 ≤ r.BlendWeight := by
  rw [GetBlendWeights_recompute env s htgt hfr]
  intro r hr
  by_cases hne : s.BlendComponents = []
  · rw [computeWeights, if_pos hne] at hr
    cases hr
  · rw [computeWeights_eq env.dist env.scalar s.BlendComponents hne] at hr
    rcases List.mem_map.1 hr with ⟨c, hc, rfl⟩
    exact le_of_lt (finalRecord_weight_pos env.dist env.scalar s.BlendComponents hne hd hs c hc)

/-- Environment for the C7 witness: one component at distance 1, scalar 1. -/
def env7w : BlendEnv :=
  { frame := 0, alive := fun _ => true, dist := fun _ => 1, scalar := fun _ => 1 }

/-- State for the C7 witness. -/
def st7w : UWorldDistanceBlendSubsystem :=
  { initSubsystem with BlendComponents := [0], BlendTarget := some 3 }

theorem claim7_weights_nonneg_witness :
    0 ≤ FDistanceBlendWeight.BlendWeight
      { Component := 0, BlendWeight := 1, DistanceBias := 1, Scalar := 1, Dist := 1 } := by
  apply claim7_weights_nonneg env7w st7w rfl (by decide)
    (fun c _ => by norm_num [env7w]) (fun c _ => by norm_num [env7w])
  norm_num [GetBlendWeights, IsTargetValid, ShouldUpdateDistance, env7w, st7w, initSubsystem,
    UINT64_MAX, computeWeights, normalizePass, scalePass, biasPass, gatherPass, WeightSum,
    LowestWeight, listMinQ, AverageDistances, TotalDistances, List.cons_ne_nil, if_neg]

theorem rawWeight_lt_of_dist (d sc : Nat → ℚ) (comps : List Nat) (hne : comps ≠ [])
    (hd : ∀ c ∈ comps, 0 < d c) (hs : ∀ c ∈ comps, 0 < sc c)
    (a b : Nat) (ha : a ∈ comps) (_hb : b ∈ comps)
    (hsceq : sc a = sc b) (hdlt : d a < d b) :
    rawWeight d sc comps b < rawWeight d sc comps a := by
  have havg := AverageDistances_pos d sc comps hne hd
  have h1 : AverageDistances d sc comps / d b < AverageDistances d sc comps / d a :=
    div_lt_div_of_pos_left havg (hd a ha) hdlt
  rw [rawWeight, rawWeight, ← hsceq]
  exact mul_lt_mul_of_pos_right h1 (hs a ha)

theorem rawWeight_lt_of_scalar (d sc : Nat → ℚ) (comps : List Nat) (hne : comps ≠ [])
    (hd : ∀ c ∈ comps, 0 < d c) (_hs : ∀ c ∈ comps, 0 < sc c)
    (a b : Nat) (ha : a ∈ comps) (_hb : b ∈ comps)
    (hdeq : d a = d b) (hsclt : sc b < sc a) :
    rawWeight d sc comps b < rawWeight d sc comps a := by
  have havg := AverageDistances_pos d sc comps hne hd
  have hbias : 0 < AverageDistances d sc comps / d a := div_pos havg (hd a ha)
  rw [rawWeight, rawWeight, ← hdeq]
  exact mul_lt_mul_of_pos_left hsclt hbias

/-- Claim C3: In any single evaluation over entities with positive distances
and positive scalars, the resulting weights are strictly monotone: for two
records A and B with equal Scalar, Dist(A) < Dist(B) implies
BlendWeight(A) > BlendWeight(B); and for two records with equal Dist,
Scalar(A) > Scalar(B) implies BlendWeight(A) > BlendWeight(B). -/
theorem claim3_monotone (d sc : Nat → ℚ) (comps : List Nat)
    (hd : ∀ c ∈ comps, 0 < d c) (hs : ∀ c ∈ comps, 0 < sc c)
    (i j : Nat) (hi : i < (computeWeights d sc comps).length)
    (hj : j < (computeWeights d sc comps).length) :
    (((computeWeights d sc comps).get ⟨i, hi⟩).Scalar
        = ((computeWeights d sc comps).get ⟨j, hj⟩).Scalar →
      ((computeWeights d sc comps).get ⟨i, hi⟩).Dist
        < ((computeWeights d sc comps).get ⟨j, hj⟩).Dist →
      ((computeWeights d sc comps).get ⟨j, hj⟩).BlendWeight
        < ((computeWeights d sc comps).get ⟨i, hi⟩).BlendWeight) ∧
    (((computeWeights d sc comps).get ⟨i, hi⟩).Dist
        = ((computeWeights d sc comps).get ⟨j, hj⟩).Dist →
      ((computeWeights d sc comps).get ⟨j, hj⟩).Scalar
        < ((computeWeights d sc comps).get ⟨i, hi⟩).Scalar →
      ((computeWeights d sc comps).get ⟨j, hj⟩).BlendWeight
        < ((computeWeights d sc comps).get ⟨i, hi⟩).BlendWeight) := by
  have hne : comps ≠ [] := by
    intro h
    rw [h] at hi
    simp [computeWeights] at hi
  have hlen : (computeWeights d sc comps).length = comps.length := by
    rw [computeWeights_eq d sc comps hne, List.length_map]
  have hi2 : i < comps.length := hlen ▸ hi
  have hj2 : j < comps.length := hlen ▸ hj
  have hgi : (computeWeights d sc comps).get ⟨i, hi⟩
      = finalRecord d sc comps (comps.get ⟨i, hi2⟩) := by
    simp [computeWeights_eq d sc comps hne, List.get_eq_getElem]
  have hgj : (computeWeights d sc comps).get ⟨j, hj⟩
      = finalRecord d sc comps (comps.get ⟨j, hj2⟩) := by
    simp [computeWeights_eq d sc comps hne, List.get_eq_getElem]
  have hmi : comps.get ⟨i, hi2⟩ ∈ comps := List.get_mem comps i hi2
  have hmj : comps.get ⟨j, hj2⟩ ∈ comps := List.get_mem comps j hj2
  rw [hgi, hgj]
  constructor
  · intro hsceq hdlt
    exact finalRecord_weight_lt d sc comps hne hd hs _ _
      (rawWeight_lt_of_dist d sc comps hne hd hs _ _ hmi hmj hsceq hdlt)
  · intro hdeq hsclt
    exact finalRecord_weight_lt d sc comps hne hd hs _ _
      (rawWeight_lt_of_scalar d sc comps hne hd hs _ _ hmi hmj hdeq hsclt)

/-- Distances for the C3 witness: component 0 at distance 1, component 1 at
distance 2. -/
def d3w : Nat → ℚ := fun c => if c = 0 then 1 else 2

/-- Scalars for the C3 witness: both 1. -/
def sc3w : Nat → ℚ := fun _ => 1

theorem len3w : (computeWeights d3w sc3w [0, 1]).length = 2 := by
  rw [computeWeights_eq d3w sc3w [0, 1] (List.cons_ne_nil 0 [1])]
  norm_num

theorem claim3_monotone_witness :
    ((computeWeights d3w sc3w [0, 1]).get ⟨1, by rw [len3w]; norm_num⟩).BlendWeight
      < ((computeWeights d3w sc3w [0, 1]).get ⟨0, by rw [len3w]; norm_num⟩).BlendWeight := by
  apply (claim3_monotone d3w sc3w [0, 1]
    (by intro c hc; fin_cases hc <;> norm_num [d3w])
    (by intro c hc; fin_cases hc <;> norm_num [sc3w])
    0 1 (by rw [len3w]; norm_num) (by rw [len3w]; norm_num)).1
  · norm_num [computeWeights, normalizePass, scalePass, biasPass, gatherPass, WeightSum,
      LowestWeight, listMinQ, AverageDistances, TotalDistances, d3w, sc3w,
      List.cons_ne_nil, if_neg]
  · norm_num [computeWeights, normalizePass, scalePass, biasPass, gatherPass, WeightSum,
      LowestWeight, listMinQ, AverageDistances, TotalDistances, d3w, sc3w,
      List.cons_ne_nil, if_neg]
